import Mathlib

set_option maxRecDepth 100000

/-!
Verification development for the JFR2020 preprocessing pipeline.

The repository's `preprocess.py` orchestrates a two-step pipeline over CT
scans: step 1 synthesizes a binary mask per scan (intensity threshold AND
cubes dilated around annotation coordinates) and stores it; step 2 reloads
the mask, rescales, crops scan and mask jointly to a mean-intensity bounding
box, rescales back, and stores both.

The per-patient array operations (`Patient.make_mask`, `Patient.crop_3d`,
`Patient.rescale`, ...) live in `utils/preprocess.py`, which is not part of
the sources here; those operations are modelled from the specification and
marked as such in their doc comments.  The path bookkeeping of the pipeline
(`get_output_paths`, `step2`) is embedded directly from `preprocess.py`.

Volumes are 3-dimensional arrays of rational intensities (rationals stand in
for the Hounsfield-unit scalars); masks are 3-dimensional boolean arrays.
Both are modelled as a shape triple together with a total indexing function,
so every array access is within the grid by construction.
-/

namespace JFR

/-- A volumetric scan: a voxel grid shape `(nx, ny, nz)` together with the
intensity at each voxel.  The data function is total; only indices below the
shape are meaningful. -/
structure Volume where
  nx : Nat
  ny : Nat
  nz : Nat
  data : Nat → Nat → Nat → ℚ

/-- A binary mask over a voxel grid, same representation as `Volume` with
boolean values. -/
structure Mask where
  nx : Nat
  ny : Nat
  nz : Nat
  data : Nat → Nat → Nat → Bool

def Volume.shape (v : Volume) : Nat × Nat × Nat := (v.nx, v.ny, v.nz)

def Mask.shape (m : Mask) : Nat × Nat × Nat := (m.nx, m.ny, m.nz)

/-- Modelled from the spec: the threshold mask of `MaskSynthesizer`
(`utils/preprocess.py` is absent from the sources) — `volume_intensity >=
threshold_hu` elementwise over the full voxel grid. -/
def threshold_mask (v : Volume) (thr : ℚ) : Mask :=
  ⟨v.nx, v.ny, v.nz, fun x y z => decide (thr ≤ v.data x y z)⟩

/-- Whether voxel `(x, y, z)` lies in the cube of side `s` centered at the
(possibly out-of-grid, hence integer) coordinate `c`: within `s / 2` of the
center on every axis, so a cube of side 3 centered at 5 covers `[4, 6]`. -/
def in_cube (c : ℤ × ℤ × ℤ) (s : Nat) (x y z : Nat) : Bool :=
  let h : ℤ := (s / 2 : Nat)
  (c.1 - h ≤ (x : ℤ) && (x : ℤ) ≤ c.1 + h) &&
  (c.2.1 - h ≤ (y : ℤ) && (y : ℤ) ≤ c.2.1 + h) &&
  (c.2.2 - h ≤ (z : ℤ) && (z : ℤ) ≤ c.2.2 + h)

/-- Modelled from the spec: the annotation mask of `MaskSynthesizer`
(`utils/preprocess.py` is absent from the sources) — for each voxel-index
coordinate mark a cube of side `s` centered there, union over all points.
The mask only carries in-grid voxels, so cubes are clipped at the grid
boundary and out-of-grid centers never index outside the grid. -/
def ann_mask (nx ny nz : Nat) (pts : List (ℤ × ℤ × ℤ)) (s : Nat) : Mask :=
  ⟨nx, ny, nz, fun x y z => pts.any (fun c => in_cube c s x y z)⟩

/-- Default intensity threshold of the pipeline, 130 HU. -/
def default_threshold : ℚ := 130

/-- Modelled from the spec: `synthesize(volume, annotation_voxel_coords,
cube_side, threshold_hu)` of `MaskSynthesizer` (`utils/preprocess.py` is
absent from the sources) — the elementwise AND of the threshold mask and
the annotation mask, a binary mask on the volume's voxel grid.  The
border-clearing step is described as optional by the spec and is not
modelled. -/
def synthesize (v : Volume) (pts : List (ℤ × ℤ × ℤ)) (s : Nat) (thr : ℚ) : Mask :=
  let tm := threshold_mask v thr
  let am := ann_mask v.nx v.ny v.nz pts s
  ⟨v.nx, v.ny, v.nz, fun x y z => tm.data x y z && am.data x y z⟩

/-- A 3D bounding box: an inclusive `(min, max)` index pair per axis. -/
structure BBox where
  x : Nat × Nat
  y : Nat × Nat
  z : Nat × Nat
deriving DecidableEq, Repr

/-- Modelled from the spec: the per-axis 1D profile of `VolumeCropper`
(`utils/preprocess.py` is absent from the sources) — mean intensity across
the other two axes, here for the first axis. -/
def profileX (v : Volume) (i : Nat) : ℚ :=
  (∑ y ∈ Finset.range v.ny, ∑ z ∈ Finset.range v.nz, v.data i y z) / (v.ny * v.nz)

/-- Mean intensity across the x and z axes, the profile along the y axis. -/
def profileY (v : Volume) (j : Nat) : ℚ :=
  (∑ x ∈ Finset.range v.nx, ∑ z ∈ Finset.range v.nz, v.data x j z) / (v.nx * v.nz)

/-- Mean intensity across the x and y axes, the profile along the z axis. -/
def profileZ (v : Volume) (k : Nat) : ℚ :=
  (∑ x ∈ Finset.range v.nx, ∑ y ∈ Finset.range v.ny, v.data x y k) / (v.nx * v.ny)

/-- Modelled from the spec: the crop cutoff of `VolumeCropper` — the overall
mean of a length-`n` profile, scaled by `factor`. -/
def cutoff (n : Nat) (prof : Nat → ℚ) (factor : ℚ) : ℚ :=
  ((∑ i ∈ Finset.range n, prof i) / n) * factor

/-- Modelled from the spec: the bounding interval of `VolumeCropper` on one
axis — the first and last index (below `n`) where the profile exceeds the
cutoff; if no index exceeds it, the full axis extent `(0, n - 1)` (fail
open). -/
def bbox_axis (n : Nat) (prof : Nat → ℚ) (cut : ℚ) : Nat × Nat :=
  match (List.range n).filter (fun i => decide (cut < prof i)) with
  | [] => (0, n - 1)
  | a :: rest => (a, List.getLastD rest a)

/-- Modelled from the spec: `compute_bbox(volume, factor)` of
`VolumeCropper` (`utils/preprocess.py` is absent from the sources) —
independently per axis, the interval of profile indices exceeding the
scaled-mean cutoff. -/
def compute_bbox (v : Volume) (factor : ℚ) : BBox :=
  ⟨bbox_axis v.nx (profileX v) (cutoff v.nx (profileX v) factor),
   bbox_axis v.ny (profileY v) (cutoff v.ny (profileY v) factor),
   bbox_axis v.nz (profileZ v) (cutoff v.nz (profileZ v) factor)⟩

/-- Whether a bounding box is inverted (`min > max`) on some axis. -/
def is_inverted (bb : BBox) : Bool :=
  (bb.x.2 < bb.x.1 : Bool) || (bb.y.2 < bb.y.1 : Bool) || (bb.z.2 < bb.z.1 : Bool)

/-- Slice a volume to a bounding box: the new shape is `max - min + 1` per
axis and voxel `(i, j, k)` of the result is voxel `(min + i, ...)` of the
input. -/
def crop_volume (v : Volume) (bb : BBox) : Volume :=
  ⟨bb.x.2 + 1 - bb.x.1, bb.y.2 + 1 - bb.y.1, bb.z.2 + 1 - bb.z.1,
   fun i j k => v.data (bb.x.1 + i) (bb.y.1 + j) (bb.z.1 + k)⟩

/-- Slice a mask to a bounding box, in the same index space as
`crop_volume`. -/
def crop_mask (m : Mask) (bb : BBox) : Mask :=
  ⟨bb.x.2 + 1 - bb.x.1, bb.y.2 + 1 - bb.y.1, bb.z.2 + 1 - bb.z.1,
   fun i j k => m.data (bb.x.1 + i) (bb.y.1 + j) (bb.z.1 + k)⟩

/-- Modelled from the spec: `apply_crop(volume, mask, bbox)` of
`VolumeCropper` (`utils/preprocess.py` is absent from the sources) — slice
both arrays to the bounding box in the same index space, reporting an error
(and slicing nothing) when the shapes differ before cropping or the box is
inverted on some axis. -/
def apply_crop (v : Volume) (m : Mask) (bb : BBox) : Except String (Volume × Mask) :=
  if v.shape ≠ m.shape then .error "ShapeMismatch"
  else if is_inverted bb then .error "InvertedBoundingBox"
  else .ok (crop_volume v bb, crop_mask m bb)

/-- Modelled from the spec: the shape bookkeeping of `Patient.rescale`
(`utils/preprocess.py` is absent from the sources) — a rescale by factor
`f` takes an axis of extent `n` to extent `round (n * f)`. -/
def rescale_len (n : Nat) (f : ℚ) : Nat := (round ((n : ℚ) * f)).toNat

/-- Modelled from the spec: `Patient.rescale` resampling a volume by
per-axis factors, with nearest-neighbour lookup of the source voxel. -/
def rescale (v : Volume) (fx fy fz : ℚ) : Volume :=
  ⟨rescale_len v.nx fx, rescale_len v.ny fy, rescale_len v.nz fz,
   fun i j k => v.data (round ((i : ℚ) / fx)).toNat (round ((j : ℚ) / fy)).toNat
      (round ((k : ℚ) / fz)).toNat⟩

/-- Embedded from `preprocess.py` (`get_output_paths`): the scan name is the
nifti path with the input-directory prefix removed and the trailing 7
characters (the `.nii.gz` suffix) dropped. -/
def scan_name_of (input_dir nifti_path : String) : String :=
  (nifti_path.drop input_dir.length).dropRight 7

/-- Embedded from `preprocess.py` (`get_output_paths`): for each dataset
pair `(json_path, nifti_path)`, the pair of output paths
`(OUTPUT_DIR/scans/<name>.npy, OUTPUT_DIR/masks/<name>.npy)`.
`os.path.join` with the relative components used there concatenates with a
single separator, modelled as string concatenation. -/
def get_output_paths (input_dir output_dir : String)
    (dataset_paths : List (String × String)) : List (String × String) :=
  dataset_paths.map (fun p =>
    (output_dir ++ "/scans/" ++ scan_name_of input_dir p.2 ++ ".npy",
     output_dir ++ "/masks/" ++ scan_name_of input_dir p.2 ++ ".npy"))

/-- A binary-array store, mapping paths to stored arrays. -/
def Store (α : Type) : Type := String → Option α

/-- Write an array to a store at a path. -/
def Store.save {α : Type} (st : Store α) (path : String) (a : α) : Store α :=
  fun p => if p = path then some a else st p

/-- Embedded from `preprocess.py` (`step2`, one loop iteration): with
`(output_scan_path, mask_path) := output_paths[i]`, load the mask from
`mask_path`, run the per-patient pipeline (rescale up, crop, rescale down —
abstracted as `proc`, since `Patient` is outside the sources), save the
processed scan to `output_scan_path` and the processed mask back to
`mask_path`.  When the mask is missing from the store the iteration fails
(the python would raise on load). -/
def step2_case {α : Type} (proc_scan : α → α) (proc_mask : α → α)
    (scan_of_case : α) (st : Store α) (output_scan_path mask_path : String) :
    Option (Store α) :=
  match st mask_path with
  | none => none
  | some m =>
      some (((st.save output_scan_path (proc_scan scan_of_case)).save
        mask_path (proc_mask m)))

/-- Embedded from `preprocess.py` (`step2`): the loop body for case `i`,
with paths taken from `get_output_paths`. -/
def step2_run {α : Type} (proc_scan : α → α) (proc_mask : α → α)
    (scan_of_case : α) (input_dir output_dir : String)
    (dataset_paths : List (String × String)) (i : Nat) (st : Store α) :
    Option (Store α) :=
  let op := (get_output_paths input_dir output_dir dataset_paths).getD i ("", "")
  step2_case proc_scan proc_mask scan_of_case st op.1 op.2

/-- A synthetic 10×10×10 volume whose only bright voxels form a 1000-HU
4×4×4 sub-block at indices `[3:7, 3:7, 3:7]`, everything else 0. -/
def blockVolume : Volume :=
  ⟨10, 10, 10, fun x y z =>
    if 3 ≤ x ∧ x ≤ 6 ∧ 3 ≤ y ∧ y ≤ 6 ∧ 3 ≤ z ∧ z ≤ 6 then 1000 else 0⟩

/-- A trivial 1×1×1 volume, used to instantiate universally quantified
results at a concrete input. -/
def unitVolume : Volume := ⟨1, 1, 1, fun _ _ _ => 0⟩

/-- A trivial 1×1×1 mask matching `unitVolume` in shape. -/
def unitMask : Mask := ⟨1, 1, 1, fun _ _ _ => false⟩

/-- A concrete one-pair dataset (json path, nifti path) for instantiating
the pipeline path bookkeeping. -/
def demoDataset : List (String × String) := [("in/a.json", "in/a.nii.gz")]

/-- The mask output path `get_output_paths` derives for `demoDataset` with
input directory `in` and output directory `out`. -/
def demoMaskPath : String := "out/masks//a.npy"

/-- The scan output path `get_output_paths` derives for `demoDataset`. -/
def demoScanPath : String := "out/scans//a.npy"

/-- A concrete store holding the intermediate mask `0` at `demoMaskPath`. -/
def demoStore : Store Nat := fun p => if p = demoMaskPath then some 0 else none

section BBoxLemmas

/-- Every index in the bounding interval machinery comes from
`List.range n` filtered by the cutoff test, so it is below `n`. -/
theorem mem_filter_range_lt (n : Nat) (prof : Nat → ℚ) (cut : ℚ) (x : Nat)
    (hx : x ∈ (List.range n).filter (fun i => decide (cut < prof i))) : x < n :=
  List.mem_range.mp (List.mem_filter.mp hx).1

/-- The filtered index list inherits strict sortedness from `List.range`. -/
theorem filter_range_pairwise (n : Nat) (prof : Nat → ℚ) (cut : ℚ) :
    ((List.range n).filter (fun i => decide (cut < prof i))).Pairwise (· < ·) :=
  (List.sorted_lt_range n).filter _

/-- The bounding interval on one axis is never inverted and stays below the
axis extent. -/
theorem bbox_axis_bounds (n : Nat) (prof : Nat → ℚ) (cut : ℚ) (hn : 0 < n) :
    (bbox_axis n prof cut).1 ≤ (bbox_axis n prof cut).2 ∧
      (bbox_axis n prof cut).2 < n := by
  unfold bbox_axis
  rcases hfil : (List.range n).filter (fun i => decide (cut < prof i)) with _ | ⟨a, rest⟩
  · exact ⟨Nat.zero_le _, Nat.sub_lt hn Nat.one_pos⟩
  · have hmem : ∀ x ∈ a :: rest, x < n := fun x hx =>
      mem_filter_range_lt n prof cut x (hfil ▸ hx)
    have hpair : (a :: rest).Pairwise (· < ·) := hfil ▸ filter_range_pairwise n prof cut
    dsimp only
    cases rest with
    | nil => exact ⟨le_refl a, hmem a (List.mem_cons_self a _)⟩
    | cons b t =>
        have hgl : (b :: t).getLastD a = (b :: t).getLast (List.cons_ne_nil b t) := by
          simp [List.getLastD_eq_getLast?, List.getLast?_eq_getLast]
        have hlmem : (b :: t).getLast (List.cons_ne_nil b t) ∈ b :: t :=
          List.getLast_mem _
        refine ⟨?_, ?_⟩
        · rw [hgl]
          exact le_of_lt ((List.pairwise_cons.mp hpair).1 _ hlmem)
        · rw [hgl]
          exact hmem _ (List.mem_cons_of_mem a hlmem)

/-- When no index beats the cutoff the bounding interval falls open to the
full axis extent. -/
theorem bbox_axis_fail_open (n : Nat) (prof : Nat → ℚ) (cut : ℚ)
    (h : ∀ i < n, ¬ cut < prof i) : bbox_axis n prof cut = (0, n - 1) := by
  unfold bbox_axis
  have hfil : (List.range n).filter (fun i => decide (cut < prof i)) = [] := by
    apply List.filter_eq_nil_iff.mpr
    intro a ha
    simp [h a (List.mem_range.mp ha)]
  rw [hfil]

end BBoxLemmas

/-- C2: for every volume, annotation coordinate list, cube side and
threshold, the mask produced by `synthesize` equals, voxel by voxel, the
logical AND of the threshold mask (`volume_intensity >= threshold_hu` over
the full voxel grid) and the annotation mask, and it is a binary (boolean)
mask of the same shape as the input volume. -/
theorem synthesize_is_and_of_threshold_and_ann (v : Volume)
    (pts : List (ℤ × ℤ × ℤ)) (s : Nat) (thr : ℚ) :
    (synthesize v pts s thr).shape = v.shape ∧
      ∀ x y z : Nat, (synthesize v pts s thr).data x y z =
        ((threshold_mask v thr).data x y z &&
          (ann_mask v.nx v.ny v.nz pts s).data x y z) :=
  ⟨rfl, fun _ _ _ => rfl⟩

/-- C5: for every volume and threshold, `synthesize` with an empty
annotation list returns an all-false mask of the volume's shape.  The
function is total, so no exception can occur on empty annotations. -/
theorem synthesize_empty_all_false (v : Volume) (s : Nat) (thr : ℚ) :
    (synthesize v ([] : List (ℤ × ℤ × ℤ)) s thr).shape = v.shape ∧
      ∀ x y z : Nat, (synthesize v [] s thr).data x y z = false :=
  ⟨rfl, fun _ _ _ => Bool.and_false _⟩

/-- C6: the annotation mask marks, at each voxel of the grid, exactly the
union over the annotation points of the side-`s` cubes centered at them
(clipped to the grid, since the mask carries only in-grid voxels); in
particular a cube of side 3 centered at voxel `(5, 5, 5)` of a 20×20×20
grid marks exactly the voxels with all three coordinates in `[4, 6]`. -/
theorem ann_mask_cube_marker :
    (∀ (nx ny nz : Nat) (pts : List (ℤ × ℤ × ℤ)) (s x y z : Nat),
        (ann_mask nx ny nz pts s).data x y z =
          pts.any (fun c => in_cube c s x y z)) ∧
      ∀ x y z : Fin 20,
        (ann_mask 20 20 20 [((5 : ℤ), 5, 5)] 3).data x.val y.val z.val =
          decide ((4 ≤ x.val ∧ x.val ≤ 6) ∧ (4 ≤ y.val ∧ y.val ≤ 6) ∧
            (4 ≤ z.val ∧ z.val ≤ 6)) :=
  ⟨fun _ _ _ _ _ _ _ _ => rfl, by decide⟩

/-- C9: an annotation coordinate outside the voxel grid never causes an
out-of-grid access — the mask is a total function on the grid by
construction — and it leaves the in-grid voxels to the in-bounds points: on
a 20×20×20 grid with side-3 cubes, the mask for the in-bounds point
`(5, 5, 5)` together with the out-of-bounds point `(-1, 25, 25)` agrees on
every grid voxel with the cube of the in-bounds point alone, so exactly the
in-bounds point's cube appears. -/
theorem ann_mask_out_of_grid_dropped :
    ∀ x y z : Fin 20,
      (ann_mask 20 20 20 [((5 : ℤ), 5, 5), (-1, 25, 25)] 3).data x.val y.val z.val =
        in_cube ((5 : ℤ), 5, 5) 3 x.val y.val z.val := by
  decide

/-- C3: `compute_bbox` treats each axis independently — the mean-intensity
profile across the other two axes against a cutoff equal to the profile
mean scaled by the factor — and on the 10×10×10 volume whose bright 4×4×4
sub-block sits at indices `[3:7, 3:7, 3:7]`, with factor 2 (a cutoff
strictly between background 0 and block profile), returns exactly the
block's index bounds on every axis. -/
theorem compute_bbox_block_volume :
    compute_bbox blockVolume 2 = ⟨(3, 6), (3, 6), (3, 6)⟩ := by
  with_unfolding_all decide

/-- C7: for a volume with nonempty axes, `compute_bbox` never returns an
inverted interval (`min > max`) on any axis, and on every axis where no
profile index exceeds the cutoff the interval falls open to the full axis
extent. -/
theorem compute_bbox_fail_open_never_inverted (v : Volume) (f : ℚ)
    (hx : 0 < v.nx) (hy : 0 < v.ny) (hz : 0 < v.nz) :
    ((compute_bbox v f).x.1 ≤ (compute_bbox v f).x.2 ∧
      (compute_bbox v f).y.1 ≤ (compute_bbox v f).y.2 ∧
      (compute_bbox v f).z.1 ≤ (compute_bbox v f).z.2) ∧
    ((∀ i < v.nx, ¬ cutoff v.nx (profileX v) f < profileX v i) →
        (compute_bbox v f).x = (0, v.nx - 1)) ∧
    ((∀ j < v.ny, ¬ cutoff v.ny (profileY v) f < profileY v j) →
        (compute_bbox v f).y = (0, v.ny - 1)) ∧
    ((∀ k < v.nz, ¬ cutoff v.nz (profileZ v) f < profileZ v k) →
        (compute_bbox v f).z = (0, v.nz - 1)) := by
  refine ⟨⟨(bbox_axis_bounds _ _ _ hx).1, (bbox_axis_bounds _ _ _ hy).1,
    (bbox_axis_bounds _ _ _ hz).1⟩, ?_, ?_, ?_⟩
  · exact fun h => bbox_axis_fail_open _ _ _ h
  · exact fun h => bbox_axis_fail_open _ _ _ h
  · exact fun h => bbox_axis_fail_open _ _ _ h

/-- Witness for C7: the guarantees instantiated at the concrete 1×1×1
volume with factor 2. -/
theorem compute_bbox_fail_open_never_inverted_witness :
    (((compute_bbox unitVolume 2).x.1 ≤ (compute_bbox unitVolume 2).x.2 ∧
      (compute_bbox unitVolume 2).y.1 ≤ (compute_bbox unitVolume 2).y.2 ∧
      (compute_bbox unitVolume 2).z.1 ≤ (compute_bbox unitVolume 2).z.2) ∧
    ((∀ i < unitVolume.nx,
        ¬ cutoff unitVolume.nx (profileX unitVolume) 2 < profileX unitVolume i) →
        (compute_bbox unitVolume 2).x = (0, unitVolume.nx - 1)) ∧
    ((∀ j < unitVolume.ny,
        ¬ cutoff unitVolume.ny (profileY unitVolume) 2 < profileY unitVolume j) →
        (compute_bbox unitVolume 2).y = (0, unitVolume.ny - 1)) ∧
    ((∀ k < unitVolume.nz,
        ¬ cutoff unitVolume.nz (profileZ unitVolume) 2 < profileZ unitVolume k) →
        (compute_bbox unitVolume 2).z = (0, unitVolume.nz - 1))) :=
  compute_bbox_fail_open_never_inverted unitVolume 2 (by decide) (by decide) (by decide)

/-- A cropped axis extent `hi + 1 - lo` never exceeds the original extent
`n` when `hi < n`. -/
theorem crop_len_le (lo hi n : Nat) (h : hi < n) : hi + 1 - lo ≤ n := by omega

/-- C1: for every volume and mask of identical shape (with nonempty axes),
the step-2 crop — `apply_crop` at the bounding box of `compute_bbox` —
succeeds and yields a volume and mask of identical shape, at most the
pre-crop shape on every axis. -/
theorem step2_crop_shape_invariant (v : Volume) (m : Mask) (f : ℚ)
    (hs : v.shape = m.shape) (hx : 0 < v.nx) (hy : 0 < v.ny) (hz : 0 < v.nz) :
    ∃ vm : Volume × Mask,
      apply_crop v m (compute_bbox v f) = .ok vm ∧
        vm.1.shape = vm.2.shape ∧
        vm.1.nx ≤ v.nx ∧ vm.1.ny ≤ v.ny ∧ vm.1.nz ≤ v.nz := by
  have bx := bbox_axis_bounds v.nx (profileX v) (cutoff v.nx (profileX v) f) hx
  have hby := bbox_axis_bounds v.ny (profileY v) (cutoff v.ny (profileY v) f) hy
  have bz := bbox_axis_bounds v.nz (profileZ v) (cutoff v.nz (profileZ v) f) hz
  have hinv : is_inverted (compute_bbox v f) = false := by
    simp only [is_inverted, compute_bbox, Bool.or_eq_false_iff,
      decide_eq_false_iff_not, not_lt]
    exact ⟨⟨bx.1, hby.1⟩, bz.1⟩
  refine ⟨(crop_volume v (compute_bbox v f), crop_mask m (compute_bbox v f)),
    ?_, rfl, ?_, ?_, ?_⟩
  · unfold apply_crop
    rw [if_neg (by simp [hs]), if_neg (by simp [hinv])]
  · exact crop_len_le _ _ _ bx.2
  · exact crop_len_le _ _ _ hby.2
  · exact crop_len_le _ _ _ bz.2

/-- Witness for C1: the step-2 crop guarantee at the concrete 1×1×1 volume
and mask with factor 2. -/
theorem step2_crop_shape_invariant_witness :
    ∃ vm : Volume × Mask,
      apply_crop unitVolume unitMask (compute_bbox unitVolume 2) = .ok vm ∧
        vm.1.shape = vm.2.shape ∧
        vm.1.nx ≤ unitVolume.nx ∧ vm.1.ny ≤ unitVolume.ny ∧
        vm.1.nz ≤ unitVolume.nz :=
  step2_crop_shape_invariant unitVolume unitMask 2 rfl (by decide) (by decide)
    (by decide)

/-- C8: `apply_crop` reports the shape-mismatch error exactly when the
volume and mask shapes differ before cropping, reports the inverted-box
error exactly when the shapes agree but the box has `min > max` on some
axis, and otherwise slices both arrays to the box in the same index
space — it never silently truncates. -/
theorem apply_crop_error_cases (v : Volume) (m : Mask) (bb : BBox) :
    (apply_crop v m bb = .error "ShapeMismatch" ↔ v.shape ≠ m.shape) ∧
    (apply_crop v m bb = .error "InvertedBoundingBox" ↔
      (v.shape = m.shape ∧ is_inverted bb = true)) ∧
    (v.shape = m.shape → is_inverted bb = false →
      apply_crop v m bb = .ok (crop_volume v bb, crop_mask m bb)) := by
  by_cases h1 : v.shape = m.shape
  · by_cases h2 : is_inverted bb
    · simp [apply_crop, h1, h2]
    · simp [apply_crop, h1, h2]
  · simp [apply_crop, h1]

/-- Witness for C8: the error characterization at a concrete volume, mask
and bounding box. -/
theorem apply_crop_error_cases_witness :
    (apply_crop unitVolume unitMask ⟨(0, 0), (0, 0), (0, 0)⟩ =
        .error "ShapeMismatch" ↔ unitVolume.shape ≠ unitMask.shape) ∧
    (apply_crop unitVolume unitMask ⟨(0, 0), (0, 0), (0, 0)⟩ =
        .error "InvertedBoundingBox" ↔
      (unitVolume.shape = unitMask.shape ∧
        is_inverted ⟨(0, 0), (0, 0), (0, 0)⟩ = true)) ∧
    (unitVolume.shape = unitMask.shape →
      is_inverted ⟨(0, 0), (0, 0), (0, 0)⟩ = false →
      apply_crop unitVolume unitMask ⟨(0, 0), (0, 0), (0, 0)⟩ =
        .ok (crop_volume unitVolume ⟨(0, 0), (0, 0), (0, 0)⟩,
          crop_mask unitMask ⟨(0, 0), (0, 0), (0, 0)⟩)) :=
  apply_crop_error_cases unitVolume unitMask ⟨(0, 0), (0, 0), (0, 0)⟩

/-- Rescaling an axis extent by a whole-number factor multiplies the
extent exactly. -/
theorem rescale_len_natCast (n m : Nat) : rescale_len n (m : ℚ) = n * m := by
  unfold rescale_len
  rw [show ((n : ℚ) * (m : ℚ)) = ((n * m : ℕ) : ℚ) by push_cast; ring,
    round_natCast]
  omega

/-- Rescaling up by a positive whole-number factor and back down by its
inverse restores the axis extent exactly. -/
theorem rescale_len_roundtrip (n m : Nat) (hm : 0 < m) :
    rescale_len (rescale_len n (m : ℚ)) (1 / (m : ℚ)) = n := by
  have hm0 : (m : ℚ) ≠ 0 := Nat.cast_ne_zero.mpr hm.ne'
  rw [rescale_len_natCast]
  unfold rescale_len
  rw [show ((n * m : ℕ) : ℚ) * (1 / (m : ℚ)) = ((n : ℕ) : ℚ) by
      push_cast; field_simp, round_natCast]
  simp

/-- C4: rescale-up followed by rescale-down with the inverse per-axis
factors and no crop in between restores the original shape, for every
volume and every positive whole-number per-axis factor — in particular for
the non-trivial, non-uniform per-axis spacing ratio `(2, 3, 2)`. -/
theorem rescale_roundtrip_shape (v : Volume) (a b c : Nat)
    (ha : 0 < a) (hb : 0 < b) (hc : 0 < c) :
    (rescale (rescale v (a : ℚ) (b : ℚ) (c : ℚ))
        (1 / (a : ℚ)) (1 / (b : ℚ)) (1 / (c : ℚ))).shape = v.shape := by
  show (rescale_len (rescale_len v.nx (a : ℚ)) (1 / (a : ℚ)),
    rescale_len (rescale_len v.ny (b : ℚ)) (1 / (b : ℚ)),
    rescale_len (rescale_len v.nz (c : ℚ)) (1 / (c : ℚ))) = (v.nx, v.ny, v.nz)
  rw [rescale_len_roundtrip v.nx a ha, rescale_len_roundtrip v.ny b hb,
    rescale_len_roundtrip v.nz c hc]

/-- Witness for C4: the round-trip at the 10×10×10 block volume with the
non-trivial per-axis factors `(2, 3, 2)`. -/
theorem rescale_roundtrip_shape_witness :
    (rescale (rescale blockVolume ((2 : ℕ) : ℚ) ((3 : ℕ) : ℚ) ((2 : ℕ) : ℚ))
        (1 / ((2 : ℕ) : ℚ)) (1 / ((3 : ℕ) : ℚ)) (1 / ((2 : ℕ) : ℚ))).shape =
      blockVolume.shape :=
  rescale_roundtrip_shape blockVolume 2 3 2 (by decide) (by decide) (by decide)

/-- C10: step 2 loads the intermediate mask of case `i` from
`output_paths[i][1]` and saves the cropped mask back to that same path,
overwriting the intermediate mask; hence a second run of step 2 without
re-running step 1 finds — and processes — the already-cropped mask at that
path, not the original intermediate mask. -/
theorem step2_mask_overwrites_intermediate {α : Type}
    (proc_scan proc_mask : α → α) (sc : α) (input_dir output_dir : String)
    (dataset_paths : List (String × String)) (i : Nat) (st : Store α)
    (scan_path mask_path : String) (m0 : α)
    (hpaths : (get_output_paths input_dir output_dir dataset_paths).getD i ("", "") =
      (scan_path, mask_path))
    (h0 : st mask_path = some m0) :
    ∃ st1,
      step2_run proc_scan proc_mask sc input_dir output_dir dataset_paths i st =
          some st1 ∧
        st1 mask_path = some (proc_mask m0) ∧
        ∃ st2,
          step2_run proc_scan proc_mask sc input_dir output_dir dataset_paths i
              st1 = some st2 ∧
            st2 mask_path = some (proc_mask (proc_mask m0)) := by
  simp only [step2_run, hpaths, step2_case, h0]
  refine ⟨_, rfl, ?_, ?_⟩
  · simp [Store.save]
  · have hX : ((st.save scan_path (proc_scan sc)).save mask_path
        (proc_mask m0)) mask_path = some (proc_mask m0) := by
      simp [Store.save]
    simp only [step2_run, hpaths, step2_case, hX]
    exact ⟨_, rfl, by simp [Store.save]⟩

/-- Witness for C10: the mask-overwrite behaviour at the concrete one-pair
dataset, with the pipeline abstracted as the successor function on a
natural-number store. -/
theorem step2_mask_overwrites_intermediate_witness :
    ∃ st1,
      step2_run id Nat.succ 0 "in" "out" demoDataset 0 demoStore = some st1 ∧
        st1 demoMaskPath = some (Nat.succ 0) ∧
        ∃ st2,
          step2_run id Nat.succ 0 "in" "out" demoDataset 0 st1 = some st2 ∧
            st2 demoMaskPath = some (Nat.succ (Nat.succ 0)) :=
  step2_mask_overwrites_intermediate id Nat.succ 0 "in" "out" demoDataset 0
    demoStore demoScanPath demoMaskPath 0 (by decide) (by decide)

end JFR
